import Mathlib

/-!
Shallow embedding of the fsq enqueue/reenqueue protocol.

The repository holds two variants of the enqueue module:
  * src/fsq/enqueue.py      -- link-publish variant (venqueue, vreenqueue, ...)
  * src/lib/fsq/enqueue.py  -- rename-publish variant (_std_args, _mkitem, venqueue)

Pure functions are translated directly; the stateful filesystem calls are
modelled as an explicit event trace (`FSEvent`) emitted by each modelled
function, together with a small-step executor (`runEvents`) giving the traces
their filesystem semantics.  OS/exception behaviour is modelled with an
explicit exception type (`Exc`).  External collaborators (path layout,
`construct`) are modelled abstractly: paths as a directory-kind/name pair,
`construct` as a function parameter of the item stager (only the entropy field
varies across retry attempts within one call).
-/

namespace FsqModel

/-- errno EAGAIN, as used by FSQMaxEnqueueTriesError. -/
def EAGAIN : Nat := 11

/-- errno EEXIST, raised by open with O_EXCL on an existing name. -/
def EEXIST : Nat := 17

/-- errno ENOENT. -/
def ENOENT : Nat := 2

/-- Directory kinds produced by the external path collaborator:
fsq_path.tmp(queue) is the staging directory, fsq_path.queue/fsq_path.item
address the live directory of a queue. -/
inductive FDir
  | tmpDir (queue : String)
  | queueDir (queue : String)
deriving DecidableEq, Repr

/-- A path is a directory plus a file name (os.path.join(dir, name)). -/
structure FPath where
  dir : FDir
  name : String
deriving DecidableEq, Repr

/-- Exceptions visible in the enqueue module.  The FSQ domain errors subclass
OSError in the source (FSQError extends OSError), which is why
isOSError is true of them. -/
inductive Exc
  | osError (en : Nat)
  | ioError (en : Nat)
  | typeError
  | fsqEnqueueError (en : Nat)
  | fsqReenqueueError (en : Nat)
  | fsqReenqueueErrorMsg (msg : String)
  | fsqMaxEnqueueTriesError (en : Nat)
  | fsqCoerceError (en : Nat)
deriving DecidableEq, Repr

/-- isinstance(e, FSQError): the domain errors of the library. -/
def isFSQError : Exc → Bool
  | .fsqEnqueueError _ => true
  | .fsqReenqueueError _ => true
  | .fsqReenqueueErrorMsg _ => true
  | .fsqMaxEnqueueTriesError _ => true
  | .fsqCoerceError _ => true
  | _ => false

/-- isinstance(e, OSError) or isinstance(e, IOError); FSQError subclasses
OSError, so domain errors satisfy this too. -/
def isOSError : Exc → Bool
  | .osError _ => true
  | .ioError _ => true
  | .typeError => false
  | .fsqEnqueueError _ => true
  | .fsqReenqueueError _ => true
  | .fsqReenqueueErrorMsg _ => true
  | .fsqMaxEnqueueTriesError _ => true
  | .fsqCoerceError _ => true

/-- e.errno of an exception (0 when the exception carries none). -/
def errnoOf : Exc → Nat
  | .osError en => en
  | .ioError en => en
  | .typeError => 0
  | .fsqEnqueueError en => en
  | .fsqReenqueueError en => en
  | .fsqReenqueueErrorMsg _ => 0
  | .fsqMaxEnqueueTriesError en => en
  | .fsqCoerceError en => en

/-- Successful filesystem operations performed by the enqueue module, in
program order.  Failing syscalls raise and emit no event. -/
inductive FSEvent
  | openExcl (p : FPath)
  | openTrunc (p : FPath)
  | fchown (p : FPath)
  | write (p : FPath) (data : String)
  | flush (p : FPath)
  | fsync (p : FPath)
  | link (src : FPath) (trg : FPath)
  | rename (src : FPath) (trg : FPath)
  | unlink (p : FPath)
  | close (p : FPath)
deriving DecidableEq, Repr

/-- The filesystem state: files present, with their content. -/
abbrev FS := List (FPath × String)

/-- Content of path p in fs, none when absent. -/
def lookupFS (fs : FS) (p : FPath) : Option String :=
  (fs.find? (fun pc => pc.1 == p)).map (fun pc => pc.2)

/-- Remove every entry at path p. -/
def removeFS (fs : FS) (p : FPath) : FS :=
  fs.filter (fun pc => !(pc.1 == p))

/-- POSIX semantics of one successful event; none models the syscall
failing instead (e.g. O_EXCL on an existing name). -/
def applyEvent (fs : FS) : FSEvent → Option FS
  | .openExcl p => if (lookupFS fs p).isSome then none else some ((p, "") :: fs)
  | .openTrunc p => some ((p, "") :: removeFS fs p)
  | .fchown _ => some fs
  | .write p d =>
      match lookupFS fs p with
      | none => none
      | some c => some ((p, c ++ d) :: removeFS fs p)
  | .flush _ => some fs
  | .fsync _ => some fs
  | .link s t =>
      match lookupFS fs s with
      | none => none
      | some c => if (lookupFS fs t).isSome then none else some ((t, c) :: fs)
  | .rename s t =>
      match lookupFS fs s with
      | none => none
      | some c => some ((t, c) :: removeFS (removeFS fs s) t)
  | .unlink p => if (lookupFS fs p).isSome then some (removeFS fs p) else none
  | .close _ => some fs

/-- Run a trace of events over a filesystem. -/
def runEvents (fs : FS) : List FSEvent → Option FS
  | [] => some fs
  | e :: es =>
      match applyEvent fs e with
      | none => none
      | some fs' => runEvents fs' es

/-- occursBefore a b l: some occurrence of a strictly precedes some
occurrence of b in l. -/
def occursBefore (a b : FSEvent) : List FSEvent → Bool
  | [] => false
  | e :: es => if e == a then es.contains b else occursBefore a b es

/-- Concatenation of all data written to path p in the trace. -/
def writtenTo (p : FPath) (l : List FSEvent) : String :=
  l.foldl (fun acc e =>
    match e with
    | .write q d => if q == p then acc ++ d else acc
    | _ => acc) ""

/-- The names published into live queue directories by a trace: targets of
link/rename events that land in a queueDir. -/
def publishedNames (l : List FSEvent) : List FPath :=
  l.filterMap (fun e =>
    match e with
    | .link _ t => match t.dir with | .queueDir _ => some t | _ => none
    | .rename _ t => match t.dir with | .queueDir _ => some t | _ => none
    | _ => none)

/-! ### Entropy generator (src/fsq/enqueue.py, _mkentropy, lines 39-48)

The module-level mutable globals _ENTROPY_PID/_ENTROPY_TIME/_ENTROPY_HOST/
_ENTROPY become an explicit state record threaded through calls. -/

/-- The four module globals of src/fsq/enqueue.py; the first three start as
Python None, _ENTROPY starts at 0. -/
structure EntropyState where
  pid : Option String
  time : Option String
  host : Option String
  entropy : Nat
deriving DecidableEq, Repr

/-- Initial module state. -/
def entropyInit : EntropyState := ⟨none, none, none, 0⟩

/-- _mkentropy(pid, now, host): if the stored identity tuple equals the
arguments, increment _ENTROPY, else store the new tuple and reset to 0;
return the resulting _ENTROPY. -/
def _mkentropy (s : EntropyState) (pid now host : String) : Nat × EntropyState :=
  if s.pid = some pid ∧ s.time = some now ∧ s.host = some host then
    (s.entropy + 1, { s with entropy := s.entropy + 1 })
  else
    (0, ⟨some pid, some now, some host, 0⟩)

/-! ### src/fsq/enqueue.py -- the link-publish variant -/

/-- The venqueue copy loop (src/fsq/enqueue.py lines 108-124): read chunks
(os.read of up to 2048 bytes, or readline) and write each, stopping at the
first zero-length read.  The input list models the successive reads the
source yields; a missing/empty chunk is end-of-stream. -/
def writtenChunks : List String → List String
  | [] => []
  | c :: cs => if c.length = 0 then [] else c :: writtenChunks cs

/-- The error translation of venqueue (src/fsq/enqueue.py lines 98-101 and
156-159): an OSError/IOError that is not already an FSQError is re-raised as
FSQEnqueueError carrying the original errno; anything else is re-raised
unchanged. -/
def venqueueWrap (e : Exc) : Exc :=
  if isOSError e && !isFSQError e then .fsqEnqueueError (errnoOf e) else e

/-- The corresponding translation in vreenqueue (src/fsq/enqueue.py lines
220-221 and 294-297), producing FSQReenqueueError. -/
def vreenqueueWrap (e : Exc) : Exc :=
  if isOSError e && !isFSQError e then .fsqReenqueueError (errnoOf e) else e

/-- venqueue of src/fsq/enqueue.py (lines 65-161), success and error paths,
as a trace model.  Inputs: the filesystem at call time, the target queue,
the constructed item_name (construct is an external collaborator, so the
built name is a parameter), the source's read chunks, and an injected
outcome for fchown (none = fchown succeeds, some e = fchown raises e).
Returns the returned identifier or raised exception, with the trace of
successful filesystem operations:
  * open(tmp_name, O_WRONLY or O_CREAT or O_EXCL) fails with EEXIST when the
    staging name exists; the inner handler wraps it (lines 98-101);
  * on fchown failure the handler (lines 138-159) closes the fd, unlinks
    tmp_name and re-raises through venqueueWrap;
  * on success: writes, flush, fsync, link into the live directory, unlink
    of the staging copy, close, and the item_name is returned (line 137). -/
def venqueue (fs : FS) (q : String) (item_name : String) (chunks : List String)
    (fchownErr : Option Exc) : Except Exc String × List FSEvent :=
  let tmp : FPath := ⟨.tmpDir q, item_name⟩
  if (lookupFS fs tmp).isSome then
    (.error (venqueueWrap (.osError EEXIST)), [])
  else
    match fchownErr with
    | some e => (.error (venqueueWrap e), [.openExcl tmp, .close tmp, .unlink tmp])
    | none =>
        (.ok item_name,
          [FSEvent.openExcl tmp, FSEvent.fchown tmp]
            ++ (writtenChunks chunks).map (fun c => FSEvent.write tmp c)
            ++ [FSEvent.flush tmp, FSEvent.fsync tmp,
                FSEvent.link tmp ⟨.queueDir q, item_name⟩,
                FSEvent.unlink tmp, FSEvent.close tmp])

/-- enqueue(trg_queue, item_f, *args, **kwargs) simply delegates to venqueue
(src/fsq/enqueue.py lines 51-56); the argument packing is a calling
convention, not behaviour. -/
def enqueue (fs : FS) (q : String) (item_name : String) (chunks : List String)
    (fchownErr : Option Exc) : Except Exc String × List FSEvent :=
  venqueue fs q item_name chunks fchownErr

/-! ### vreenqueue (src/fsq/enqueue.py lines 198-299) -/

/-- The three shapes of the vreenqueue source argument: a basestring (an
item identifier), an object with a .queue attribute (an FSQWorkItem), or
any other file-like source. -/
inductive RSource
  | str (s : String)
  | workItem (id : String) (queue : String) (arguments : List String)
  | fileLike (h : String)
deriving DecidableEq, Repr

/-- Argument dispatch of vreenqueue (lines 204-217): a basestring source
with no src_queue raises a bare TypeError; a work-item source derives
item_id and src_queue from the item; any other source with no item_id
keyword raises FSQReenqueueError; otherwise returns the resolved
(item_id, src_queue). -/
def vreenqueueDispatch (item_f : RSource) (item_id : Option String)
    (src_queue : Option String) : Except Exc (String × Option String) :=
  match item_f with
  | .str s =>
      match src_queue with
      | none => .error .typeError
      | some q => .ok (s, some q)
  | .workItem id q arguments =>
      .ok (id ++ "_".intercalate arguments, some q)
  | .fileLike _ =>
      match item_id with
      | none => .error (.fsqReenqueueErrorMsg "Improper argmuents")
      | some iid => .ok (iid, src_queue)

/-- One iteration body of the vreenqueue buffered read loop (lines 225-239),
for a pollable source: line := os.read(fd, 2048); then the loop breaks when
0 == len(msg) -- the accumulator, not the line just read -- else appends.
The fuel argument bounds the iterations so the model is total; none means
the fuel ran out before the loop exited. -/
def vreenqueueReadAux : Nat → List String → List String → Option (List String)
  | 0, _, _ => none
  | fuel + 1, chunks, msg =>
      let line := chunks.headD ""
      if msg.length = 0 then some msg
      else vreenqueueReadAux fuel (chunks.tailD []) (msg ++ [line])

/-- The vreenqueue buffered read loop, started with msg = [] as in the
source (line 224). -/
def vreenqueueRead (chunks : List String) : Option (List String) :=
  vreenqueueReadAux (chunks.length + 1) chunks []

/-- Staging step of the vreenqueue fan-out for one target queue (lines
242-261).  In link mode the source's live file is hard-linked to the
target's staging name; if that staging name already exists (tmpExists), the
EEXIST handler unlinks it and links from the source's staging copy instead.
In buffered mode the staging file is opened O_RDWR or O_CREAT or O_TRUNC (no
O_EXCL) and the joined buffer is written, flushed and fsynced. -/
def reenqueueStageOne (srcQueue : String) (item_id : String) (link : Bool)
    (msg : List String) (tmpExists : String → Bool) (q : String) : List FSEvent :=
  let tmp : FPath := ⟨.tmpDir q, item_id⟩
  if link then
    if tmpExists q then
      [FSEvent.unlink tmp, FSEvent.link ⟨.tmpDir srcQueue, item_id⟩ tmp]
    else
      [FSEvent.link ⟨.queueDir srcQueue, item_id⟩ tmp]
  else
    [FSEvent.openTrunc tmp, FSEvent.write tmp (String.join msg),
     FSEvent.flush tmp, FSEvent.fsync tmp, FSEvent.close tmp]

/-- First fan-out loop (lines 242-261): stage into every target queue. -/
def reenqueueStageAll (srcQueue : String) (item_id : String) (link : Bool)
    (msg : List String) (tmpExists : String → Bool) : List String → List FSEvent
  | [] => []
  | q :: qs =>
      reenqueueStageOne srcQueue item_id link msg tmpExists q
        ++ reenqueueStageAll srcQueue item_id link msg tmpExists qs

/-- Second fan-out loop (lines 262-272): for each target queue, hard-link
the staged copy into the live directory under the same item_id, then unlink
the staged copy. -/
def reenqueuePublishAll (item_id : String) : List String → List FSEvent
  | [] => []
  | q :: qs =>
      [FSEvent.link ⟨.tmpDir q, item_id⟩ ⟨.queueDir q, item_id⟩,
       FSEvent.unlink ⟨.tmpDir q, item_id⟩]
        ++ reenqueuePublishAll item_id qs

/-- The two fan-out loops of vreenqueue in order. -/
def vreenqueueFanout (srcQueue : String) (item_id : String) (link : Bool)
    (msg : List String) (tmpExists : String → Bool) (queues : List String) :
    List FSEvent :=
  reenqueueStageAll srcQueue item_id link msg tmpExists queues
    ++ reenqueuePublishAll item_id queues

/-! ### src/lib/fsq/enqueue.py -- the rename-publish variant -/

/-- Outcome of _mkitem: the staged path with the attempt count on success;
FSQMaxEnqueueTriesError(errno) after `tried` attempts; or an exception
re-raised from inside the loop. -/
inductive MkItemOutcome
  | success (trg : FPath) (tried : Nat)
  | maxTries (en : Nat) (tried : Nat)
  | raised (e : Exc) (tried : Nat)
deriving DecidableEq, Repr

/-- The retry loop of _mkitem (src/lib/fsq/enqueue.py lines 71-108).
construct closes over (now, pid, host, tries, args, delimiter, encodeseq);
only the entropy field varies between attempts, so it is the function's
argument.  Per iteration, guarded by `0 >= enqueue_tries or enqueue_tries >
tried`: increment tried, build the name, open with O_CREAT|O_EXCL|O_WRONLY.
On EEXIST: break (and fall through to FSQMaxEnqueueTriesError(EAGAIN)) when
the caller supplied entropy, else set entropy to the attempt counter and
retry.  On creation: fchown; if fchown raises, unlink the created file, close
the fd and propagate; else return the path (the original fd is closed, a
dup'ed stream is returned).  Failed open attempts create nothing, so only the
final attempt emits events.  fuel bounds the iterations (none = fuel ran out
with the loop still running). -/
def mkitemLoop (fs : FS) (d : FDir) (construct : String → String)
    (recvEntropy : Bool) (enqueueTries : Int) (fchownErr : Option Exc) :
    Nat → String → Nat → Option (MkItemOutcome × List FSEvent)
  | 0, _, _ => none
  | fuel + 1, entropy, tried =>
      if enqueueTries ≤ 0 ∨ (tried : Int) < enqueueTries then
        let trg : FPath := ⟨d, construct entropy⟩
        if (lookupFS fs trg).isSome then
          if recvEntropy then
            some (.maxTries EAGAIN (tried + 1), [])
          else
            mkitemLoop fs d construct recvEntropy enqueueTries fchownErr
              fuel (toString (tried + 1)) (tried + 1)
        else
          match fchownErr with
          | some e =>
              some (.raised e (tried + 1),
                [FSEvent.openExcl trg, FSEvent.unlink trg, FSEvent.close trg])
          | none =>
              some (.success trg (tried + 1),
                [FSEvent.openExcl trg, FSEvent.fchown trg, FSEvent.close trg])
      else
        some (.maxTries EAGAIN tried, [])

/-- _mkitem (src/lib/fsq/enqueue.py lines 68-108).  recv_entropy records
whether the caller supplied an entropy keyword; the initial entropy string
comes from _std_args (unicode of the supplied value, default 0); tried
starts at 0. -/
def _mkitem (fs : FS) (d : FDir) (construct : String → String)
    (entropyArg : Option Int) (enqueueTries : Int) (fchownErr : Option Exc)
    (fuel : Nat) : Option (MkItemOutcome × List FSEvent) :=
  mkitemLoop fs d construct entropyArg.isSome enqueueTries fchownErr
    fuel (toString (entropyArg.getD 0)) 0

/-- The venqueue copy loop of src/lib/fsq/enqueue.py (lines 159-163):
readline until an empty line, writing each line to the staged file. -/
def writtenLines : List String → List String
  | [] => []
  | l :: ls => if l.length = 0 then [] else l :: writtenLines ls

/-- venqueue of src/lib/fsq/enqueue.py (lines 125-178), success and
_mkitem-failure paths, as a trace model.  It stages via _mkitem in the tmp
directory, writes the source's lines through the dup'ed line-buffered
stream, creates a live-directory placeholder with a second _mkitem call
(passing only the standard keywords, hence constructCommit), renames the
staged file onto the placeholder, and closes both streams.  The write loop
emits its writes; no flush and no fsync appear anywhere in this variant,
and both closes happen after the rename.  The function body has no return
statement, so success yields Python None (modelled as .ok none).  On an
exception after staging, the staged file is unlinked and the exception
propagates unwrapped (lines 170-176). -/
def libVenqueue (fs : FS) (q : String)
    (construct constructCommit : String → String) (entropyArg : Option Int)
    (enqueueTries : Int) (lines : List String) (fuel : Nat) :
    Option (Except Exc (Option String) × List FSEvent) :=
  match _mkitem fs (.tmpDir q) construct entropyArg enqueueTries none fuel with
  | none => none
  | some (.maxTries en _, evs) =>
      some (.error (.fsqMaxEnqueueTriesError en), evs)
  | some (.raised e _, evs) => some (.error e, evs)
  | some (.success name _, evs) =>
      let writes := (writtenLines lines).map (fun l => FSEvent.write name l)
      match _mkitem fs (.queueDir q) constructCommit entropyArg enqueueTries
          none fuel with
      | none => none
      | some (.maxTries en _, evs2) =>
          some (.error (.fsqMaxEnqueueTriesError en),
            evs ++ writes ++ evs2 ++ [FSEvent.unlink name])
      | some (.raised e _, evs2) =>
          some (.error e, evs ++ writes ++ evs2 ++ [FSEvent.unlink name])
      | some (.success commitName _, evs2) =>
          some (.ok none,
            evs ++ writes ++ evs2
              ++ [FSEvent.rename name commitName,
                  FSEvent.close commitName, FSEvent.close name])

/-! ### Helper lemmas -/

/-- Written data extracted from a trace, as the list of write payloads to p. -/
def writesTo (p : FPath) : List FSEvent → List String
  | [] => []
  | .write q d :: es => if q == p then d :: writesTo p es else writesTo p es
  | _ :: es => writesTo p es

/-- Suffix of the trace strictly after the first occurrence of a. -/
def dropThrough (a : FSEvent) : List FSEvent → List FSEvent
  | [] => []
  | e :: es => if e == a then es else dropThrough a es

theorem publishedNames_append (a b : List FSEvent) :
    publishedNames (a ++ b) = publishedNames a ++ publishedNames b := by
  simp [publishedNames, List.filterMap_append]

theorem publishedNames_stageOne (srcq id : String) (lnk : Bool)
    (msg : List String) (te : String → Bool) (q : String) :
    publishedNames (reenqueueStageOne srcq id lnk msg te q) = [] := by
  cases lnk <;> cases hte : te q <;>
    simp [reenqueueStageOne, hte, publishedNames]

theorem publishedNames_stageAll (srcq id : String) (lnk : Bool)
    (msg : List String) (te : String → Bool) (queues : List String) :
    publishedNames (reenqueueStageAll srcq id lnk msg te queues) = [] := by
  induction queues with
  | nil => rfl
  | cons q qs ih =>
      simp [reenqueueStageAll, publishedNames_append, publishedNames_stageOne, ih]

theorem publishedNames_publishAll (id : String) (queues : List String) :
    publishedNames (reenqueuePublishAll id queues) =
      queues.map (fun q => (⟨.queueDir q, id⟩ : FPath)) := by
  induction queues with
  | nil => rfl
  | cons q qs ih =>
      have hc : reenqueuePublishAll id (q :: qs) =
          [FSEvent.link ⟨.tmpDir q, id⟩ ⟨.queueDir q, id⟩,
           FSEvent.unlink ⟨.tmpDir q, id⟩] ++ reenqueuePublishAll id qs := rfl
      rw [hc, publishedNames_append, ih]
      rfl

/-- Value of one _mkentropy call as a function of the incoming state. -/
theorem mkentropy_fst (s : EntropyState) (p n h : String) :
    (_mkentropy s p n h).1 =
      if s.pid = some p ∧ s.time = some n ∧ s.host = some h
      then s.entropy + 1 else 0 := by
  unfold _mkentropy
  split <;> rfl

/-- State left behind by one _mkentropy call: the identity tuple of the call
and the value just returned. -/
theorem mkentropy_snd (s : EntropyState) (p n h : String) :
    (_mkentropy s p n h).2 =
      ⟨some p, some n, some h, (_mkentropy s p n h).1⟩ := by
  obtain ⟨sp, st, sh, se⟩ := s
  unfold _mkentropy
  split <;> simp_all

theorem writtenChunks_eq_self (chunks : List String) (h : ∀ c ∈ chunks, c ≠ "") :
    writtenChunks chunks = chunks := by
  induction chunks with
  | nil => rfl
  | cons c cs ih =>
      have hc : c ≠ "" := h c (by simp)
      have hlen : ¬ c.length = 0 := by
        intro h0
        apply hc
        cases c with
        | mk data =>
            have hd : data.length = 0 := h0
            have hdata : data = [] := List.length_eq_zero.mp hd
            rw [hdata]
      simp only [writtenChunks, if_neg hlen]
      exact congrArg (c :: ·) (ih (fun c' hc' => h c' (by simp [hc'])))

theorem venqueue_success_trace (fs : FS) (q name : String) (chunks : List String)
    (hn : (lookupFS fs ⟨.tmpDir q, name⟩).isSome = false) :
    venqueue fs q name chunks none =
      (.ok name,
        [FSEvent.openExcl ⟨.tmpDir q, name⟩, FSEvent.fchown ⟨.tmpDir q, name⟩]
          ++ (writtenChunks chunks).map
              (fun c => FSEvent.write ⟨.tmpDir q, name⟩ c)
          ++ [FSEvent.flush ⟨.tmpDir q, name⟩, FSEvent.fsync ⟨.tmpDir q, name⟩,
              FSEvent.link ⟨.tmpDir q, name⟩ ⟨.queueDir q, name⟩,
              FSEvent.unlink ⟨.tmpDir q, name⟩,
              FSEvent.close ⟨.tmpDir q, name⟩]) := by
  simp [venqueue, hn]

theorem occursBefore_append_of_not_mem (a b : FSEvent) (l1 l2 : List FSEvent)
    (h : ∀ e ∈ l1, (e == a) = false) :
    occursBefore a b (l1 ++ l2) = occursBefore a b l2 := by
  induction l1 with
  | nil => rfl
  | cons e es ih =>
      simp only [List.cons_append, occursBefore, h e (by simp)]
      simp only [Bool.false_eq_true, if_false]
      exact ih (fun e' he' => h e' (by simp [he']))

theorem dropThrough_append_of_not_mem (a : FSEvent) (l1 l2 : List FSEvent)
    (h : ∀ e ∈ l1, (e == a) = false) :
    dropThrough a (l1 ++ l2) = dropThrough a l2 := by
  induction l1 with
  | nil => rfl
  | cons e es ih =>
      simp only [List.cons_append, dropThrough, h e (by simp)]
      simp only [Bool.false_eq_true, if_false]
      exact ih (fun e' he' => h e' (by simp [he']))

theorem map_write_not_beq (p : FPath) (l : List String) (a : FSEvent)
    (h : ∀ d, a ≠ .write p d) :
    ∀ e ∈ l.map (fun c => FSEvent.write p c), (e == a) = false := by
  intro e he
  obtain ⟨c, _, rfl⟩ := List.mem_map.mp he
  have hne : FSEvent.write p c ≠ a := fun hh => h c hh.symm
  simpa using hne

theorem writesTo_map_self (p : FPath) (l : List String) :
    writesTo p (l.map (fun c => FSEvent.write p c)) = l := by
  induction l with
  | nil => rfl
  | cons c cs ih =>
      simp only [List.map_cons, writesTo, beq_self_eq_true, if_true]
      exact congrArg (c :: ·) ih

theorem writesTo_append (p : FPath) (l1 l2 : List FSEvent) :
    writesTo p (l1 ++ l2) = writesTo p l1 ++ writesTo p l2 := by
  induction l1 with
  | nil => rfl
  | cons e es ih =>
      cases e <;>
        simp only [List.cons_append, writesTo, List.append_eq, ih]
      split <;> rfl

theorem publishedNames_map_write (p : FPath) (l : List String) :
    publishedNames (l.map (fun c => FSEvent.write p c)) = [] := by
  induction l with
  | nil => rfl
  | cons c cs ih =>
      simp only [publishedNames, List.map_cons, List.filterMap_cons] at ih ⊢
      simp [ih]

theorem string_empty_append (s : String) : "" ++ s = s := by
  cases s
  rfl

theorem lookupFS_cons_self (fs : FS) (p : FPath) (c : String) :
    lookupFS ((p, c) :: fs) p = some c := by
  simp [lookupFS, List.find?]

theorem removeFS_of_lookup_none (fs : FS) (p : FPath)
    (h : lookupFS fs p = none) : removeFS fs p = fs := by
  have hfind : fs.find? (fun pc => pc.1 == p) = none := by
    cases hf : fs.find? (fun pc => pc.1 == p) with
    | none => rfl
    | some pc => simp [lookupFS, hf] at h
  have hall := List.find?_eq_none.mp hfind
  exact List.filter_eq_self.mpr (fun pc hpc => by
    simpa using hall pc hpc)

theorem runEvents_cleanup_triple (fs : FS) (trg : FPath)
    (h : lookupFS fs trg = none) :
    runEvents fs [.openExcl trg, .unlink trg, .close trg] = some fs := by
  have h1 : (lookupFS fs trg).isSome = false := by simp [h]
  have hstep1 : applyEvent fs (.openExcl trg) = some ((trg, "") :: fs) := by
    simp [applyEvent, h1]
  have h2 : lookupFS ((trg, "") :: fs) trg = some "" :=
    lookupFS_cons_self fs trg ""
  have hrm : removeFS ((trg, "") :: fs) trg = fs := by
    have htail : List.filter (fun pc => !(pc.1 == trg)) fs = fs :=
      removeFS_of_lookup_none fs trg h
    unfold removeFS
    rw [List.filter_cons]
    simpa using htail
  have hstep2 : applyEvent ((trg, "") :: fs) (.unlink trg) = some fs := by
    simp [applyEvent, h2, hrm]
  have hstep3 : applyEvent fs (.close trg) = some fs := rfl
  simp only [runEvents, hstep1, hstep2, hstep3]

/-- Does the trace consist of exactly create-unlink-close of one path?
This is the cleanup shape of the fchown failure path of _mkitem. -/
def isCleanupTriple : List FSEvent → Bool
  | [.openExcl p, .unlink p', .close p''] => p == p' && p' == p''
  | _ => false

theorem mkitemLoop_raised_shape (fs : FS) (d : FDir)
    (construct : String → String) (recv : Bool) (tries : Int) (ex : Exc) :
    ∀ (fuel : Nat) (ent : String) (tr : Nat) (e' : Exc) (k : Nat)
      (evs : List FSEvent),
      mkitemLoop fs d construct recv tries (some ex) fuel ent tr =
        some (.raised e' k, evs) →
      e' = ex ∧ isCleanupTriple evs = true ∧ runEvents fs evs = some fs := by
  intro fuel
  induction fuel with
  | zero =>
      intro ent tr e' k evs h
      simp [mkitemLoop] at h
  | succ f ih =>
      intro ent tr e' k evs h
      rw [mkitemLoop] at h
      by_cases hg : tries ≤ 0 ∨ ((tr : Int) < tries)
      · rw [if_pos hg] at h
        by_cases hl : (lookupFS fs ⟨d, construct ent⟩).isSome = true
        · simp only [hl, if_true] at h
          cases recv with
          | true => simp at h
          | false => exact ih _ _ _ _ _ h
        · have hl' : (lookupFS fs ⟨d, construct ent⟩).isSome = false := by
            simpa using hl
          simp only [hl', Bool.false_eq_true, if_false, Option.some.injEq,
            Prod.mk.injEq, MkItemOutcome.raised.injEq] at h
          obtain ⟨⟨he, hk⟩, hevs⟩ := h
          subst he
          subst hevs
          refine ⟨rfl, by simp [isCleanupTriple], ?_⟩
          exact runEvents_cleanup_triple fs _ (by
            cases hlk : lookupFS fs ⟨d, construct ent⟩ with
            | none => rfl
            | some c => simp [hlk] at hl')
      · rw [if_neg hg] at h
        simp at h

/-! ### Claim theorems -/

/-- C4: the entropy generator, called with a (pid, formatted-time, hostname)
tuple, returns 0 whenever the tuple differs from the previous call's, and
otherwise returns the previous result plus 1, so within a fixed identity
tuple successive calls strictly increase the counter. -/
theorem mkentropy_reset_or_increment (s : EntropyState) (p n h p' n' h' : String) :
    ((p', n', h') = (p, n, h) →
      (_mkentropy (_mkentropy s p n h).2 p' n' h').1 = (_mkentropy s p n h).1 + 1 ∧
      (_mkentropy s p n h).1 < (_mkentropy (_mkentropy s p n h).2 p' n' h').1) ∧
    ((p', n', h') ≠ (p, n, h) →
      (_mkentropy (_mkentropy s p n h).2 p' n' h').1 = 0) := by
  have hval : (_mkentropy (_mkentropy s p n h).2 p' n' h').1 =
      if p = p' ∧ n = n' ∧ h = h'
      then (_mkentropy s p n h).1 + 1 else 0 := by
    rw [mkentropy_fst, mkentropy_snd]
    simp
  constructor
  · intro he
    obtain ⟨hp, hn, hh⟩ : p' = p ∧ n' = n ∧ h' = h := by
      simpa [Prod.ext_iff] using he
    subst hp; subst hn; subst hh
    rw [hval, if_pos ⟨rfl, rfl, rfl⟩]
    omega
  · intro hne
    rw [hval, if_neg]
    intro ⟨a, b, c⟩
    exact hne (by simp [a, b, c])

/-- C4 witness: two same-tuple calls from the initial state give 0 then 1;
a changed pid gives 0 again. -/
theorem mkentropy_reset_or_increment_witness :
    (_mkentropy (_mkentropy entropyInit "p1" "t1" "h1").2 "p1" "t1" "h1").1 =
      (_mkentropy entropyInit "p1" "t1" "h1").1 + 1 ∧
    (_mkentropy (_mkentropy entropyInit "p1" "t1" "h1").2 "p2" "t1" "h1").1 = 0 :=
  ⟨((mkentropy_reset_or_increment entropyInit "p1" "t1" "h1" "p1" "t1" "h1").1 rfl).1,
   (mkentropy_reset_or_increment entropyInit "p1" "t1" "h1" "p2" "t1" "h1").2
     (by decide)⟩

/-- C9: a basestring source with no src_queue keyword raises a bare
TypeError, which is not an FSQ domain error; a non-string, non-queue-item
source with no item_id keyword raises the reenqueue domain error for
improper arguments. -/
theorem vreenqueueDispatch_error_spec :
    (∀ s iid, vreenqueueDispatch (.str s) iid none = .error .typeError) ∧
    isFSQError .typeError = false ∧
    (∀ h sq, vreenqueueDispatch (.fileLike h) none sq =
      .error (.fsqReenqueueErrorMsg "Improper argmuents")) ∧
    isFSQError (.fsqReenqueueErrorMsg "Improper argmuents") = true :=
  ⟨fun _ _ => rfl, rfl, fun _ _ => rfl, rfl⟩

/-- C2 (evidence of the code bug): the vreenqueue buffered read loop tests
the accumulator's length instead of the chunk just read, so it terminates on
its first iteration with an empty buffer for every source; at the concrete
source reading "ab" then "cd" the joined bytes staged for the targets are
empty, not the source content, while the enqueue-side loop (writtenChunks)
keeps the full content. -/
theorem vreenqueueRead_drops_content :
    (∀ chunks, vreenqueueRead chunks = some []) ∧
    vreenqueueRead ["ab", "cd"] = some [] ∧
    String.join [] = "" ∧
    writtenChunks ["ab", "cd"] = ["ab", "cd"] ∧
    ("" : String) ≠ "ab" ++ "cd" := by
  refine ⟨fun chunks => rfl, rfl, rfl, rfl, by decide⟩

/-- C8: for a resident source (identifier plus source queue), vreenqueue
publishes into every target queue under exactly the source's identifier: the
live names produced by the fan-out are the targets paired with item_id, in
both link and buffered modes; and argument dispatch on a resident source
resolves item_id to the source identifier itself. -/
theorem vreenqueue_same_identifier :
    (∀ srcq id lnk msg te queues,
      publishedNames (vreenqueueFanout srcq id lnk msg te queues) =
        queues.map (fun q => (⟨.queueDir q, id⟩ : FPath))) ∧
    (∀ s q iid, vreenqueueDispatch (.str s) iid (some q) = .ok (s, some q)) := by
  constructor
  · intro srcq id lnk msg te queues
    simp [vreenqueueFanout, publishedNames_append, publishedNames_stageAll,
      publishedNames_publishAll]
  · intro s q iid
    rfl

/-- C7: during enqueue and reenqueue an OS-level failure is re-raised as
exactly one domain error carrying the original errno (FSQEnqueueError for
venqueue, FSQReenqueueError for vreenqueue), while an FSQ domain error from
a nested call passes through the same handlers unchanged; in particular
venqueue with a failing nested operation surfaces exactly the singly-wrapped
error. -/
theorem enqueue_error_wrapping (en : Nat) (e : Exc) (fs : FS) (q n : String)
    (chunks : List String) :
    (venqueueWrap (.osError en) = .fsqEnqueueError en ∧
     venqueueWrap (.ioError en) = .fsqEnqueueError en ∧
     vreenqueueWrap (.osError en) = .fsqReenqueueError en ∧
     vreenqueueWrap (.ioError en) = .fsqReenqueueError en) ∧
    (isFSQError e = true → venqueueWrap e = e ∧ vreenqueueWrap e = e) ∧
    ((lookupFS fs ⟨.tmpDir q, n⟩).isSome = false →
      (venqueue fs q n chunks (some (.osError en))).1 =
        .error (.fsqEnqueueError en)) ∧
    (isFSQError e = true → (lookupFS fs ⟨.tmpDir q, n⟩).isSome = false →
      (venqueue fs q n chunks (some e)).1 = .error e) := by
  refine ⟨⟨rfl, rfl, rfl, rfl⟩, ?_, ?_, ?_⟩
  · intro he
    cases e <;> simp_all [venqueueWrap, vreenqueueWrap, isFSQError, isOSError]
  · intro hn
    simp [venqueue, hn, venqueueWrap, isOSError, isFSQError, errnoOf]
  · intro he hn
    have hw : venqueueWrap e = e := by
      cases e <;> simp_all [venqueueWrap, isFSQError, isOSError]
    simp [venqueue, hn, hw]

/-- C7 witness: a concrete ENOSPC-style OSError (errno 28) is wrapped once;
a concrete nested FSQMaxEnqueueTriesError passes through unchanged. -/
theorem enqueue_error_wrapping_witness :
    venqueueWrap (.osError 28) = .fsqEnqueueError 28 ∧
    (venqueue [] "q" "n" ["x"] (some (.osError 28))).1 =
      .error (.fsqEnqueueError 28) ∧
    venqueueWrap (.fsqMaxEnqueueTriesError 11) = .fsqMaxEnqueueTriesError 11 ∧
    (venqueue [] "q" "n" ["x"] (some (.fsqMaxEnqueueTriesError 11))).1 =
      .error (.fsqMaxEnqueueTriesError 11) :=
  ⟨(enqueue_error_wrapping 28 (.fsqMaxEnqueueTriesError 11) [] "q" "n"
      ["x"]).1.1,
   (enqueue_error_wrapping 28 (.fsqMaxEnqueueTriesError 11) [] "q" "n"
      ["x"]).2.2.1 rfl,
   ((enqueue_error_wrapping 28 (.fsqMaxEnqueueTriesError 11) [] "q" "n"
      ["x"]).2.1 rfl).1,
   (enqueue_error_wrapping 28 (.fsqMaxEnqueueTriesError 11) [] "q" "n"
      ["x"]).2.2.2 rfl rfl⟩

/-- C1 (amended): in the link-publish venqueue of src/fsq/enqueue.py, every
payload chunk is written to the staging file, the buffer flush precedes the
fsync, the fsync strictly precedes the link into the live directory, and no
write occurs after the fsync; so in this variant durability precedes
visibility.  (The rename-publish venqueue of src/lib/fsq/enqueue.py does
not satisfy the claim; see the counterexample.) -/
theorem venqueue_durability_before_publish (fs : FS) (q name : String)
    (chunks : List String) (hc : ∀ c ∈ chunks, c ≠ "")
    (hn : (lookupFS fs ⟨.tmpDir q, name⟩).isSome = false) :
    writesTo ⟨.tmpDir q, name⟩ (venqueue fs q name chunks none).2 = chunks ∧
    occursBefore (.flush ⟨.tmpDir q, name⟩) (.fsync ⟨.tmpDir q, name⟩)
      (venqueue fs q name chunks none).2 = true ∧
    occursBefore (.fsync ⟨.tmpDir q, name⟩)
      (.link ⟨.tmpDir q, name⟩ ⟨.queueDir q, name⟩)
      (venqueue fs q name chunks none).2 = true ∧
    writesTo ⟨.tmpDir q, name⟩
      (dropThrough (.fsync ⟨.tmpDir q, name⟩)
        (venqueue fs q name chunks none).2) = [] := by
  rw [venqueue_success_trace fs q name chunks hn]
  set tmp : FPath := ⟨.tmpDir q, name⟩ with htmp
  have hpre1 : ∀ a : FSEvent, (∀ p, a ≠ .openExcl p) → (∀ p, a ≠ .fchown p) →
      ∀ e ∈ [FSEvent.openExcl tmp, FSEvent.fchown tmp], (e == a) = false := by
    intro a h1 h2 e he
    simp only [List.mem_cons, List.not_mem_nil, or_false] at he
    rcases he with rfl | rfl
    · simpa using fun hh => h1 tmp hh.symm
    · simpa using fun hh => h2 tmp hh.symm
  refine ⟨?_, ?_, ?_, ?_⟩
  · rw [writesTo_append, writesTo_append, writesTo_map_self,
      writtenChunks_eq_self chunks hc]
    simp [writesTo]
  · rw [List.append_assoc,
      occursBefore_append_of_not_mem _ _ _ _
        (hpre1 _ (fun p => by simp) (fun p => by simp)),
      occursBefore_append_of_not_mem _ _ _ _
        (map_write_not_beq tmp (writtenChunks chunks)
          (.flush tmp) (fun d => by simp))]
    simp [occursBefore, List.contains, List.elem]
  · rw [List.append_assoc,
      occursBefore_append_of_not_mem _ _ _ _
        (hpre1 _ (fun p => by simp) (fun p => by simp)),
      occursBefore_append_of_not_mem _ _ _ _
        (map_write_not_beq tmp (writtenChunks chunks)
          (.fsync tmp) (fun d => by simp))]
    simp [occursBefore, List.contains, List.elem]
  · rw [List.append_assoc,
      dropThrough_append_of_not_mem _ _ _
        (hpre1 _ (fun p => by simp) (fun p => by simp)),
      dropThrough_append_of_not_mem _ _ _
        (map_write_not_beq tmp (writtenChunks chunks)
          (.fsync tmp) (fun d => by simp))]
    simp [dropThrough, writesTo]

/-- C1 witness for the amended theorem, at a one-chunk payload. -/
theorem venqueue_durability_before_publish_witness :
    writesTo ⟨.tmpDir "q", "n"⟩ (venqueue [] "q" "n" ["x"] none).2 = ["x"] ∧
    occursBefore (.flush ⟨.tmpDir "q", "n"⟩) (.fsync ⟨.tmpDir "q", "n"⟩)
      (venqueue [] "q" "n" ["x"] none).2 = true ∧
    occursBefore (.fsync ⟨.tmpDir "q", "n"⟩)
      (.link ⟨.tmpDir "q", "n"⟩ ⟨.queueDir "q", "n"⟩)
      (venqueue [] "q" "n" ["x"] none).2 = true ∧
    writesTo ⟨.tmpDir "q", "n"⟩
      (dropThrough (.fsync ⟨.tmpDir "q", "n"⟩)
        (venqueue [] "q" "n" ["x"] none).2) = [] :=
  venqueue_durability_before_publish [] "q" "n" ["x"] (by decide) rfl

/-- C1 counterexample: the rename-publish venqueue of src/lib/fsq/enqueue.py
violates the claim as stated.  At a concrete successful call, the publish
(rename into the live directory) is present in the trace, yet no fsync
precedes it; in fact the trace contains no fsync and no flush at all, so
durability does not precede visibility in this enqueue variant. -/
theorem lib_venqueue_publish_without_fsync :
    ((libVenqueue [] "q" (fun e => "n" ++ e) (fun e => "n" ++ e) none 10
        ["x"] 3).getD (.ok none, [])).2.contains
      (.rename ⟨.tmpDir "q", "n0"⟩ ⟨.queueDir "q", "n0"⟩) = true ∧
    occursBefore (.fsync ⟨.tmpDir "q", "n0"⟩)
      (.rename ⟨.tmpDir "q", "n0"⟩ ⟨.queueDir "q", "n0"⟩)
      ((libVenqueue [] "q" (fun e => "n" ++ e) (fun e => "n" ++ e) none 10
        ["x"] 3).getD (.ok none, [])).2 = false ∧
    ((libVenqueue [] "q" (fun e => "n" ++ e) (fun e => "n" ++ e) none 10
        ["x"] 3).getD (.ok none, [])).2.all
      (fun e => match e with | FSEvent.fsync _ => false | _ => true) = true ∧
    ((libVenqueue [] "q" (fun e => "n" ++ e) (fun e => "n" ++ e) none 10
        ["x"] 3).getD (.ok none, [])).2.all
      (fun e => match e with | FSEvent.flush _ => false | _ => true) = true := by
  decide

/-- C6 (amended): in src/fsq/enqueue.py every successful enqueue/venqueue
call returns the identifier of the published item, and that identifier is
exactly the name linked into the live directory.  (The rename-publish
venqueue of src/lib/fsq/enqueue.py instead returns None; see the
counterexample.) -/
theorem venqueue_returns_identifier (fs : FS) (q name : String)
    (chunks : List String)
    (hn : (lookupFS fs ⟨.tmpDir q, name⟩).isSome = false) :
    (venqueue fs q name chunks none).1 = .ok name ∧
    (enqueue fs q name chunks none).1 = .ok name ∧
    publishedNames (venqueue fs q name chunks none).2 =
      [⟨.queueDir q, name⟩] := by
  rw [show enqueue fs q name chunks none = venqueue fs q name chunks none
    from rfl, venqueue_success_trace fs q name chunks hn]
  refine ⟨rfl, rfl, ?_⟩
  rw [publishedNames_append, publishedNames_append, publishedNames_map_write]
  rfl

/-- C6 witness for the amended theorem. -/
theorem venqueue_returns_identifier_witness :
    (venqueue [] "q" "n" ["x"] none).1 = .ok "n" ∧
    (enqueue [] "q" "n" ["x"] none).1 = .ok "n" ∧
    publishedNames (venqueue [] "q" "n" ["x"] none).2 =
      [⟨.queueDir "q", "n"⟩] :=
  venqueue_returns_identifier [] "q" "n" ["x"] rfl

/-- C6 counterexample: at a concrete successful call, the rename-publish
venqueue of src/lib/fsq/enqueue.py returns None (its body has no return
statement), not the identifier of the published item, which is "n0" here. -/
theorem lib_venqueue_returns_none :
    ((libVenqueue [] "q" (fun e => "n" ++ e) (fun e => "n" ++ e) none 10
        ["x"] 3).getD (.error .typeError, [])).1 =
      .ok (none : Option String) ∧
    (Except.ok (none : Option String) : Except Exc (Option String)) ≠
      .ok (some "n0") := by
  refine ⟨rfl, ?_⟩
  intro h
  injection h with h2
  exact Option.noConfusion h2

theorem runEvents_open_close_unlink (fs : FS) (trg : FPath)
    (h : lookupFS fs trg = none) :
    runEvents fs [.openExcl trg, .close trg, .unlink trg] = some fs := by
  have h1 : (lookupFS fs trg).isSome = false := by simp [h]
  have hstep1 : applyEvent fs (.openExcl trg) = some ((trg, "") :: fs) := by
    simp [applyEvent, h1]
  have hstep2 : applyEvent ((trg, "") :: fs) (.close trg) =
      some ((trg, "") :: fs) := rfl
  have hrm : removeFS ((trg, "") :: fs) trg = fs := by
    have htail : List.filter (fun pc => !(pc.1 == trg)) fs = fs :=
      removeFS_of_lookup_none fs trg h
    unfold removeFS
    rw [List.filter_cons]
    simpa using htail
  have hstep3 : applyEvent ((trg, "") :: fs) (.unlink trg) = some fs := by
    simp [applyEvent, lookupFS_cons_self, hrm]
  simp only [runEvents, hstep1, hstep2, hstep3]

/-- C5: when fchown on the just-created staging file fails, the staging file
is unlinked before the error propagates: in _mkitem of src/lib/fsq/enqueue.py
a raised outcome carries exactly the injected fchown exception, the emitted
trace is precisely create-unlink-close of the staged path, and replaying it
restores the original filesystem (no staged file survives); in venqueue of
src/fsq/enqueue.py the fchown-failure handler likewise closes, unlinks the
staging file, and replaying its trace restores the filesystem. -/
theorem fchown_failure_never_leaves_file (fs : FS) (d : FDir)
    (construct : String → String) (entropyArg : Option Int)
    (enqueueTries : Int) (ex : Exc) (fuel tried : Nat) (e' : Exc)
    (evs : List FSEvent)
    (h : _mkitem fs d construct entropyArg enqueueTries (some ex) fuel =
      some (.raised e' tried, evs)) :
    (e' = ex ∧ isCleanupTriple evs = true ∧ runEvents fs evs = some fs) ∧
    (∀ q n chunks exq, (lookupFS fs ⟨.tmpDir q, n⟩).isSome = false →
      (venqueue fs q n chunks (some exq)).2 =
        [.openExcl ⟨.tmpDir q, n⟩, .close ⟨.tmpDir q, n⟩,
         .unlink ⟨.tmpDir q, n⟩] ∧
      runEvents fs (venqueue fs q n chunks (some exq)).2 = some fs) := by
  constructor
  · exact mkitemLoop_raised_shape fs d construct entropyArg.isSome
      enqueueTries ex fuel (toString (entropyArg.getD 0)) 0 e' tried evs h
  · intro q n chunks exq hn
    have htr : (venqueue fs q n chunks (some exq)).2 =
        [.openExcl ⟨.tmpDir q, n⟩, .close ⟨.tmpDir q, n⟩,
         .unlink ⟨.tmpDir q, n⟩] := by
      simp [venqueue, hn]
    refine ⟨htr, ?_⟩
    rw [htr]
    refine runEvents_open_close_unlink fs _ ?_
    cases hlk : lookupFS fs ⟨.tmpDir q, n⟩ with
    | none => rfl
    | some c => simp [hlk] at hn

/-- C5 witness at a concrete failing fchown (errno EPERM = 1). -/
theorem fchown_failure_never_leaves_file_witness :
    ((Exc.osError 1 : Exc) = .osError 1 ∧
      isCleanupTriple
        [.openExcl ⟨.tmpDir "a", "it0"⟩, .unlink ⟨.tmpDir "a", "it0"⟩,
         .close ⟨.tmpDir "a", "it0"⟩] = true ∧
      runEvents []
        [.openExcl ⟨.tmpDir "a", "it0"⟩, .unlink ⟨.tmpDir "a", "it0"⟩,
         .close ⟨.tmpDir "a", "it0"⟩] = some []) ∧
    ((venqueue [] "q" "n" ["c"] (some (.osError 7))).2 =
        [.openExcl ⟨.tmpDir "q", "n"⟩, .close ⟨.tmpDir "q", "n"⟩,
         .unlink ⟨.tmpDir "q", "n"⟩] ∧
      runEvents [] (venqueue [] "q" "n" ["c"] (some (.osError 7))).2 =
        some []) :=
  ⟨(fchown_failure_never_leaves_file [] (.tmpDir "a")
      (fun e => "it" ++ e) none 10 (.osError 1) 2 1 (.osError 1)
      [.openExcl ⟨.tmpDir "a", "it0"⟩, .unlink ⟨.tmpDir "a", "it0"⟩,
       .close ⟨.tmpDir "a", "it0"⟩] (by decide)).1,
   (fchown_failure_never_leaves_file [] (.tmpDir "a")
      (fun e => "it" ++ e) none 10 (.osError 1) 2 1 (.osError 1)
      [.openExcl ⟨.tmpDir "a", "it0"⟩, .unlink ⟨.tmpDir "a", "it0"⟩,
       .close ⟨.tmpDir "a", "it0"⟩] (by decide)).2 "q" "n" ["c"]
      (.osError 7) rfl⟩

/-- C10: the buffered reenqueue staging opens each target staging file with
create-and-truncate and no exclusive flag: the staging trace contains an
openTrunc and never an openExcl, replaying it over a filesystem that already
holds a staging file of the same identifier succeeds and leaves that file
holding exactly the new buffer (the old content is silently overwritten),
whereas venqueue's exclusive-create staging on the same filesystem fails
with FSQEnqueueError(EEXIST). -/
theorem reenqueue_trunc_overwrites (fs : FS) (srcq id q : String)
    (msg chunks : List String) (te : String → Bool) (fe : Option Exc)
    (hold : (lookupFS fs ⟨.tmpDir q, id⟩).isSome = true) :
    FSEvent.openTrunc ⟨.tmpDir q, id⟩ ∈
      reenqueueStageOne srcq id false msg te q ∧
    (∀ p, FSEvent.openExcl p ∉ reenqueueStageOne srcq id false msg te q) ∧
    (runEvents fs (reenqueueStageOne srcq id false msg te q)).bind
      (fun fs' => lookupFS fs' ⟨.tmpDir q, id⟩) = some (String.join msg) ∧
    (venqueue fs q id chunks fe).1 = .error (.fsqEnqueueError EEXIST) := by
  refine ⟨by simp [reenqueueStageOne], ?_, ?_, ?_⟩
  · intro p
    simp [reenqueueStageOne]
  · have e1 : applyEvent fs (.openTrunc ⟨.tmpDir q, id⟩) =
        some ((⟨.tmpDir q, id⟩, "") :: removeFS fs ⟨.tmpDir q, id⟩) := rfl
    have e2 : applyEvent
        ((⟨.tmpDir q, id⟩, "") :: removeFS fs ⟨.tmpDir q, id⟩)
        (.write ⟨.tmpDir q, id⟩ (String.join msg)) =
        some ((⟨.tmpDir q, id⟩, "" ++ String.join msg) ::
          removeFS ((⟨.tmpDir q, id⟩, "") :: removeFS fs ⟨.tmpDir q, id⟩)
            ⟨.tmpDir q, id⟩) := by
      simp [applyEvent, lookupFS_cons_self]
    have hshape : reenqueueStageOne srcq id false msg te q =
        [.openTrunc ⟨.tmpDir q, id⟩,
         .write ⟨.tmpDir q, id⟩ (String.join msg),
         .flush ⟨.tmpDir q, id⟩, .fsync ⟨.tmpDir q, id⟩,
         .close ⟨.tmpDir q, id⟩] := rfl
    have e3 : ∀ g : FS, applyEvent g (.flush ⟨.tmpDir q, id⟩) = some g :=
      fun g => rfl
    have e4 : ∀ g : FS, applyEvent g (.fsync ⟨.tmpDir q, id⟩) = some g :=
      fun g => rfl
    have e5 : ∀ g : FS, applyEvent g (.close ⟨.tmpDir q, id⟩) = some g :=
      fun g => rfl
    rw [hshape]
    simp only [runEvents, e1, e2, e3, e4, e5]
    simp [lookupFS_cons_self, string_empty_append]
  · simp [venqueue, hold, venqueueWrap, isOSError, isFSQError, errnoOf]

/-- C10 witness: a pre-existing staging file named i in queue a is silently
truncated and overwritten by the buffered reenqueue staging, while the
enqueue stager collides on it. -/
theorem reenqueue_trunc_overwrites_witness :
    FSEvent.openTrunc ⟨.tmpDir "a", "i"⟩ ∈
      reenqueueStageOne "s" "i" false ["m"] (fun _ => false) "a" ∧
    FSEvent.openExcl ⟨.tmpDir "a", "i"⟩ ∉
      reenqueueStageOne "s" "i" false ["m"] (fun _ => false) "a" ∧
    (runEvents [(⟨.tmpDir "a", "i"⟩, "old")]
      (reenqueueStageOne "s" "i" false ["m"] (fun _ => false) "a")).bind
      (fun fs' => lookupFS fs' ⟨.tmpDir "a", "i"⟩) =
        some (String.join ["m"]) ∧
    (venqueue [(⟨.tmpDir "a", "i"⟩, "old")] "a" "i" ["c"] none).1 =
      .error (.fsqEnqueueError EEXIST) := by
  have h := reenqueue_trunc_overwrites [(⟨.tmpDir "a", "i"⟩, "old")]
    "s" "i" "a" ["m"] ["c"] (fun _ => false) none rfl
  exact ⟨h.1, h.2.1 ⟨.tmpDir "a", "i"⟩, h.2.2.1, h.2.2.2⟩

theorem mkitemLoop_skip (fs : FS) (d : FDir) (construct : String → String)
    (tries : Int) (fe : Option Exc) (m : Nat) :
    ∀ (fuel k : Nat),
      (∀ j, k ≤ j → j < k + m →
        (lookupFS fs ⟨d, construct (toString j)⟩).isSome = true) →
      (∀ j : Nat, k ≤ j → j < k + m → (tries ≤ 0 ∨ (j : Int) < tries)) →
      mkitemLoop fs d construct false tries fe (fuel + m) (toString k) k =
        mkitemLoop fs d construct false tries fe fuel (toString (k + m))
          (k + m) := by
  induction m with
  | zero => intro fuel k _ _; rfl
  | succ n ih =>
      intro fuel k hex hg
      have hfuel : fuel + (n + 1) = (fuel + n) + 1 := rfl
      have hstep :
          mkitemLoop fs d construct false tries fe ((fuel + n) + 1)
              (toString k) k =
            mkitemLoop fs d construct false tries fe (fuel + n)
              (toString (k + 1)) (k + 1) := by
        rw [mkitemLoop]
        rw [if_pos (hg k (le_refl k) (by omega))]
        simp only [hex k (le_refl k) (by omega), if_true,
          Bool.false_eq_true, if_false]
      rw [hfuel, hstep]
      have hrec := ih fuel (k + 1)
        (fun j hj1 hj2 => hex j (by omega) (by omega))
        (fun j hj1 hj2 => hg j (by omega) (by omega))
      rw [hrec]
      have harith : k + 1 + n = k + (n + 1) := by omega
      rw [harith]

theorem mkitemLoop_unbounded_no_maxtries (fs : FS) (d : FDir)
    (construct : String → String) (tries : Int) (fe : Option Exc)
    (ht : tries ≤ 0) :
    ∀ (fuel : Nat) (ent : String) (tr : Nat) (en k : Nat)
      (evs : List FSEvent),
      mkitemLoop fs d construct false tries fe fuel ent tr ≠
        some (.maxTries en k, evs) := by
  intro fuel
  induction fuel with
  | zero =>
      intro ent tr en k evs h
      simp [mkitemLoop] at h
  | succ f ih =>
      intro ent tr en k evs h
      rw [mkitemLoop] at h
      rw [if_pos (Or.inl ht)] at h
      by_cases hl : (lookupFS fs ⟨d, construct ent⟩).isSome = true
      · simp only [hl, if_true, Bool.false_eq_true, if_false] at h
        exact ih _ _ _ _ _ h
      · have hl' : (lookupFS fs ⟨d, construct ent⟩).isSome = false := by
          simpa using hl
        simp only [hl', Bool.false_eq_true, if_false] at h
        cases fe <;> simp at h

/-- C3: the item stager's collision policy (src/lib/fsq/enqueue.py,
_mkitem).  (a) With a caller-supplied entropy value, a name collision stops
the loop at once -- one attempt, zero retries -- and the call fails with
FSQMaxEnqueueTriesError(EAGAIN).  (b) Without explicit entropy the attempt
counter is substituted as the entropy of the next attempt, so if the names
built from entropies 0..n-1 exist and the one from entropy n does not, the
stager succeeds on attempt n+1 with exactly that name (tries permitting).
(c) enqueue_tries <= 0 means unbounded: without explicit entropy, the call
can never fail with FSQMaxEnqueueTriesError.  (d) With a positive bound t
and every candidate name taken, exactly t attempts are made and the call
fails with FSQMaxEnqueueTriesError(EAGAIN). -/
theorem mkitem_retry_spec :
    (∀ (fs : FS) (d : FDir) (construct : String → String) (e : Int)
        (tries : Int) (fe : Option Exc) (fuel : Nat),
      1 ≤ fuel →
      (lookupFS fs ⟨d, construct (toString e)⟩).isSome = true →
      _mkitem fs d construct (some e) tries fe fuel =
        some (.maxTries EAGAIN 1, [])) ∧
    (∀ (fs : FS) (d : FDir) (construct : String → String) (tries : Int)
        (n fuel : Nat),
      (∀ j, j < n → (lookupFS fs ⟨d, construct (toString j)⟩).isSome = true) →
      (lookupFS fs ⟨d, construct (toString n)⟩).isSome = false →
      (tries ≤ 0 ∨ (n : Int) < tries) →
      n < fuel →
      _mkitem fs d construct none tries none fuel =
        some (.success ⟨d, construct (toString n)⟩ (n + 1),
          [.openExcl ⟨d, construct (toString n)⟩,
           .fchown ⟨d, construct (toString n)⟩,
           .close ⟨d, construct (toString n)⟩])) ∧
    (∀ (fs : FS) (d : FDir) (construct : String → String) (tries : Int)
        (fe : Option Exc) (fuel en k : Nat) (evs : List FSEvent),
      tries ≤ 0 →
      _mkitem fs d construct none tries fe fuel ≠
        some (.maxTries en k, evs)) ∧
    (∀ (fs : FS) (d : FDir) (construct : String → String) (t : Nat)
        (fe : Option Exc) (fuel : Nat),
      0 < t →
      (∀ j : Nat, (lookupFS fs ⟨d, construct (toString j)⟩).isSome = true) →
      t < fuel →
      _mkitem fs d construct none (t : Int) fe fuel =
        some (.maxTries EAGAIN t, [])) := by
  have hinit : toString ((none : Option Int).getD 0) = toString (0 : Nat) := by
    decide
  have hrecv : (none : Option Int).isSome = false := rfl
  refine ⟨?_, ?_, ?_, ?_⟩
  · intro fs d construct e tries fe fuel hfuel hex
    obtain ⟨f, rfl⟩ : ∃ f, fuel = f + 1 := ⟨fuel - 1, by omega⟩
    unfold _mkitem
    rw [mkitemLoop]
    rw [if_pos (show tries ≤ 0 ∨ ((0 : Nat) : Int) < tries by omega)]
    simp [hex]
  · intro fs d construct tries n fuel hex hfree hg hfuel
    unfold _mkitem
    rw [hinit, hrecv]
    obtain ⟨f, hf⟩ : ∃ f, fuel = (f + 1) + n := ⟨fuel - n - 1, by omega⟩
    rw [hf]
    rw [mkitemLoop_skip fs d construct tries none n (f + 1) 0
      (fun j hj1 hj2 => hex j (by omega))
      (fun j hj1 hj2 => by
        rcases hg with hg | hg
        · exact Or.inl hg
        · exact Or.inr (by omega))]
    rw [mkitemLoop]
    rw [if_pos (show tries ≤ 0 ∨ (((0 + n : Nat)) : Int) < tries by
      rcases hg with hg | hg
      · exact Or.inl hg
      · exact Or.inr (by push_cast; omega))]
    have hfree' : (lookupFS fs
        ⟨d, construct (toString (0 + n))⟩).isSome = false := by
      simpa using hfree
    simp only [hfree', Bool.false_eq_true, if_false]
    simp
  · intro fs d construct tries fe fuel en k evs ht
    exact mkitemLoop_unbounded_no_maxtries fs d construct tries fe ht
      fuel _ 0 en k evs
  · intro fs d construct t fe fuel hpos hall hfuel
    unfold _mkitem
    rw [hinit, hrecv]
    obtain ⟨f, hf⟩ : ∃ f, fuel = (f + 1) + t := ⟨fuel - t - 1, by omega⟩
    rw [hf]
    rw [mkitemLoop_skip fs d construct (t : Int) fe t (f + 1) 0
      (fun j hj1 hj2 => hall j)
      (fun j hj1 hj2 => Or.inr (by omega))]
    rw [mkitemLoop]
    rw [if_neg (show ¬((t : Int) ≤ 0 ∨ ((0 + t : Nat) : Int) < (t : Int)) by
      push_cast
      omega)]
    simp

/-- C3 witness: with the names built from entropies 0 and 1 pre-existing,
(a) explicit entropy 0 fails at once with one attempt; (b) auto entropy
succeeds on attempt 3 under the name built from entropy 2; (c) with
enqueue_tries = -1 the result is never a maxTries outcome; (d) with
enqueue_tries = 2 and every name taken, exactly 2 attempts are made and the
call fails with FSQMaxEnqueueTriesError(EAGAIN). -/
theorem mkitem_retry_spec_witness :
    _mkitem [(⟨.tmpDir "a", "it0"⟩, ""), (⟨.tmpDir "a", "it1"⟩, "")]
        (.tmpDir "a") (fun e => "it" ++ e) (some 0) 5 none 4 =
      some (.maxTries EAGAIN 1, []) ∧
    _mkitem [(⟨.tmpDir "a", "it0"⟩, ""), (⟨.tmpDir "a", "it1"⟩, "")]
        (.tmpDir "a") (fun e => "it" ++ e) none 5 none 4 =
      some (.success ⟨.tmpDir "a", "it2"⟩ 3,
        [.openExcl ⟨.tmpDir "a", "it2"⟩, .fchown ⟨.tmpDir "a", "it2"⟩,
         .close ⟨.tmpDir "a", "it2"⟩]) ∧
    _mkitem [(⟨.tmpDir "a", "x"⟩, "")] (.tmpDir "a") (fun _ => "x") none
        (-1) none 3 ≠ some (.maxTries 11 0, []) ∧
    _mkitem [(⟨.tmpDir "a", "x"⟩, "")] (.tmpDir "a") (fun _ => "x") none
        2 none 4 = some (.maxTries EAGAIN 2, []) :=
  ⟨mkitem_retry_spec.1 [(⟨.tmpDir "a", "it0"⟩, ""), (⟨.tmpDir "a", "it1"⟩, "")]
      (.tmpDir "a") (fun e => "it" ++ e) 0 5 none 4 (by omega) (by decide),
   mkitem_retry_spec.2.1 [(⟨.tmpDir "a", "it0"⟩, ""),
      (⟨.tmpDir "a", "it1"⟩, "")] (.tmpDir "a") (fun e => "it" ++ e) 5 2 4
      (by decide) (by decide) (by decide) (by omega),
   mkitem_retry_spec.2.2.1 [(⟨.tmpDir "a", "x"⟩, "")] (.tmpDir "a")
      (fun _ => "x") (-1) none 3 11 0 [] (by omega),
   mkitem_retry_spec.2.2.2 [(⟨.tmpDir "a", "x"⟩, "")] (.tmpDir "a")
      (fun _ => "x") 2 none 4 (by omega)
      (fun j =>
        (by decide :
          (lookupFS [(⟨FDir.tmpDir "a", "x"⟩, "")]
            ⟨FDir.tmpDir "a", "x"⟩).isSome = true))
      (by omega)⟩

end FsqModel
